import Mathlib

/-!
Shallow embedding of the bookmark sync store
(`components/places/src/bookmark_sync/store.rs`): the data model
(`moz_bookmarks`, `moz_bookmarks_synced`, `moz_bookmarks_deleted`,
`moz_places`, `moz_places_stale_frecencies`, the transient upload/merge
tables and the sync metadata keys) and the operations `has_changes`,
`stage_incoming`, `update_local_items`, `stage_local_items_to_upload`,
`fetch_outgoing_records`, `push_synced_items`, `update_frecencies`,
`reset`, `wipe`, `apply_incoming`, `sync_finished`,
`get_sync_assoc`, `Merger::merge`, `Merger::fetch_local_tree`,
`Merger::fetch_remote_tree`, and the row-to-item conversions.

SQL tables are lists of row structures; machine integers (`i64`) are
`Int`; nullable columns are `Option`.  The external tree-merge algorithm
(dogear), the incoming-record applicator, and the frecency scorer are
parameters, as the source code treats them as external collaborators.
Parts of the repository that are referenced but not part of this file's
source (SQL triggers, `create_synced_bookmark_roots`,
`frecency_stale_at`, the record-id mapping) are modelled from the spec
and marked as such in their doc comments.
-/

namespace BookmarkSync

/-- Bookmark guids are 22-char strings; we model them as plain strings. -/
abbrev Guid := String

/-- Source: `BookmarkRootGuid::Root.as_guid()`: the synthetic root. -/
def rootGuid : Guid := "root________"

/-- Source: `BookmarkRootGuid::Menu.as_guid()`. -/
def menuGuid : Guid := "menu________"

/-- Source: `BookmarkRootGuid::Toolbar.as_guid()`. -/
def toolbarGuid : Guid := "toolbar_____"

/-- Source: `BookmarkRootGuid::Unfiled.as_guid()`. -/
def unfiledGuid : Guid := "unfiled_____"

/-- Source: `BookmarkRootGuid::Mobile.as_guid()`. -/
def mobileGuid : Guid := "mobile______"

/-- The five roots named by `RootsFragment` in `wipe`, in source order:
Root, Menu, Mobile, Toolbar, Unfiled. -/
def wipeRoots : List Guid := [rootGuid, menuGuid, mobileGuid, toolbarGuid, unfiledGuid]

/-- Source: `SyncStatus` of a local bookmark row. -/
inductive SyncStatus where
  | unknown
  | new
  | normal
deriving DecidableEq, Repr

/-- Local bookmark item types (`BookmarkType`). -/
inductive BookmarkType where
  | bookmark
  | folder
  | separator
deriving DecidableEq, Repr

/-- Kinds of synced (mirror) items (`SyncedBookmarkKind`). -/
inductive SyncedBookmarkKind where
  | bookmark
  | query
  | folder
  | livemark
  | separator
deriving DecidableEq, Repr

/-- Validity of a synced record (`SyncedBookmarkValidity`). -/
inductive SyncedBookmarkValidity where
  | valid
  | reupload
  | replace
deriving DecidableEq, Repr

/-- A row of `moz_bookmarks` (the live local table): `id`, `guid`,
`parent` (rowid of the parent), `position`, `type`, `title`, `fk`
(place id), `dateAdded`, `lastModified`, `syncChangeCounter`,
`syncStatus`. -/
structure LocalRow where
  id : Int
  guid : Guid
  parent : Int
  position : Int
  type : BookmarkType
  title : Option String
  fk : Option Int
  dateAdded : Int
  lastModified : Int
  syncChangeCounter : Int
  syncStatus : SyncStatus
deriving DecidableEq, Repr

/-- A row of `moz_bookmarks_synced` (the mirror). -/
structure MirrorRow where
  guid : Guid
  parentGuid : Option Guid
  kind : SyncedBookmarkKind
  title : Option String
  placeId : Option Int
  keyword : Option String
  dateAdded : Option Int
  serverModified : Int
  needsMerge : Bool
  isDeleted : Bool
  validity : SyncedBookmarkValidity
deriving DecidableEq, Repr

/-- A row of `moz_bookmarks_synced_structure` (authoritative child order). -/
structure MirrorStructureRow where
  guid : Guid
  parentGuid : Guid
  position : Int
deriving DecidableEq, Repr

/-- A row of `moz_bookmarks_deleted` (local tombstones). -/
structure TombstoneRow where
  guid : Guid
  dateRemoved : Int
deriving DecidableEq, Repr

/-- A row of `moz_places`. -/
structure PlaceRow where
  id : Int
  url : String
  frecency : Int
deriving DecidableEq, Repr

/-- A row of `moz_places_stale_frecencies`. -/
structure StaleFrecencyRow where
  placeId : Int
  staleAt : Int
deriving DecidableEq, Repr

/-- A row of `moz_tags`. -/
structure TagRow where
  id : Int
  tag : String
deriving DecidableEq, Repr

/-- A row of `moz_tags_relation`. -/
structure TagRelationRow where
  placeId : Int
  tagId : Int
deriving DecidableEq, Repr

/-- A row of the transient `itemsToUpload` table. -/
structure UploadRow where
  id : Option Int
  guid : Guid
  syncChangeCounter : Int
  parentGuid : Option Guid
  parentTitle : Option String
  dateAdded : Option Int
  title : Option String
  placeId : Option Int
  kind : Option SyncedBookmarkKind
  url : Option String
  keyword : Option String
  position : Option Int
  isDeleted : Bool
  uploadedAt : Option Int
deriving DecidableEq, Repr

/-- A row of the transient `structureToUpload` table. -/
structure StructureUploadRow where
  guid : Guid
  parentId : Int
  position : Int
deriving DecidableEq, Repr

/-- A row of the transient `tagsToUpload` table. -/
structure TagUploadRow where
  id : Int
  tag : String
deriving DecidableEq, Repr

/-- A row of the transient `mergedTree` table, i.e. one
`MergedDescendant` produced by the tree merge: the local/remote/merged
guids, the merged parent guid, level, position, and the decoded merge
state (`useRemote = merge_state.should_apply()`,
`shouldUpload = merge_state.upload_reason() != None`). -/
structure MergedTreeRow where
  localGuid : Option Guid
  remoteGuid : Option Guid
  mergedGuid : Guid
  mergedParentGuid : Guid
  level : Int
  position : Int
  useRemote : Bool
  shouldUpload : Bool
deriving DecidableEq, Repr

/-- A row of the transient `itemsToRemove` table, i.e. one `Deletion`
produced by the tree merge. -/
structure DeletionRow where
  guid : Guid
  localLevel : Int
  shouldUploadTombstone : Bool
deriving DecidableEq, Repr

/-- The persisted sync metadata: the three reserved keys
`bookmarks_last_sync_time`, `bookmarks_global_sync_id`,
`bookmarks_sync_id`; a missing key is `none`. -/
structure SyncMeta where
  lastSyncMs : Option Int
  globalSyncId : Option String
  collSyncId : Option String
deriving DecidableEq, Repr

/-- The whole database state visible to the bookmarks sync store:
the persistent tables, the connection-scoped transient tables, and the
sync metadata. -/
structure DbState where
  localItems : List LocalRow
  mirror : List MirrorRow
  mirrorStructure : List MirrorStructureRow
  tombstones : List TombstoneRow
  places : List PlaceRow
  staleFrecencies : List StaleFrecencyRow
  tags : List TagRow
  tagsRelation : List TagRelationRow
  itemsToUpload : List UploadRow
  structureToUpload : List StructureUploadRow
  tagsToUpload : List TagUploadRow
  idsToWeaklyUpload : List Int
  mergedTree : List MergedTreeRow
  itemsToRemove : List DeletionRow
  meta : SyncMeta
deriving DecidableEq, Repr

/-- Corruption kinds raised by the tree fetchers. -/
inductive Corruption where
  | invalidLocalRoots
  | invalidSyncedRoots
deriving DecidableEq, Repr

/-- Errors surfaced by store operations. -/
inductive SyncError where
  | corruption (c : Corruption)
  | interrupted
  | storage
deriving DecidableEq, Repr

/-- Source: `put_meta(db, LAST_SYNC_META_KEY, v)`. -/
def putMetaLastSync (v : Int) (s : DbState) : DbState :=
  { s with meta := { s.meta with lastSyncMs := some v } }

/-- Source: `get_meta::<i64>(db, LAST_SYNC_META_KEY)`. -/
def getMetaLastSync (s : DbState) : Option Int :=
  s.meta.lastSyncMs

/-- Source: `StoreSyncAssociation` from the sync15 crate. -/
inductive StoreSyncAssociation where
  | disconnected
  | connected (global : String) (coll : String)
deriving DecidableEq, Repr

/-- Source: `BookmarksStore::get_sync_assoc`: reads the two sync-id metadata
keys and is `Connected` exactly when both are present. -/
def getSyncAssoc (s : DbState) : StoreSyncAssociation :=
  match s.meta.globalSyncId, s.meta.collSyncId with
  | some global, some coll => .connected global coll
  | _, _ => .disconnected

/-- Modelled from the spec: `create_synced_bookmark_roots` (defined in
the sibling `bookmark_sync` module, not in this file's source)
"recreates the mirror roots": it upserts mirror rows for the synthetic
root and the four user roots, and the corresponding
`moz_bookmarks_synced_structure` rows placing the user roots under the
synthetic root. -/
def syncedRootRow (guid : Guid) (parentGuid : Option Guid) : MirrorRow :=
  { guid := guid, parentGuid := parentGuid, kind := .folder, title := some ""
    placeId := none, keyword := none, dateAdded := some 0, serverModified := 0
    needsMerge := false, isDeleted := false, validity := .valid }

/-- The mirror rows inserted by `create_synced_bookmark_roots`
(modelled from the spec, see `syncedRootRow`). -/
def mirrorRootRows : List MirrorRow :=
  [syncedRootRow rootGuid none,
   syncedRootRow menuGuid (some rootGuid),
   syncedRootRow toolbarGuid (some rootGuid),
   syncedRootRow unfiledGuid (some rootGuid),
   syncedRootRow mobileGuid (some rootGuid)]

/-- The structure rows inserted by `create_synced_bookmark_roots`
(modelled from the spec, see `syncedRootRow`). -/
def mirrorRootStructureRows : List MirrorStructureRow :=
  [{ guid := menuGuid, parentGuid := rootGuid, position := 0 },
   { guid := toolbarGuid, parentGuid := rootGuid, position := 1 },
   { guid := unfiledGuid, parentGuid := rootGuid, position := 2 },
   { guid := mobileGuid, parentGuid := rootGuid, position := 3 }]

/-- Modelled from the spec: the effect of `create_synced_bookmark_roots`
on the state — upsert the root rows into the mirror and its structure
table. -/
def createSyncedBookmarkRoots (s : DbState) : DbState :=
  { s with
    mirror := mirrorRootRows ++
      s.mirror.filter (fun v => decide (v.guid ∉ wipeRoots)),
    mirrorStructure := mirrorRootStructureRows ++
      s.mirrorStructure.filter (fun r => decide (r.guid ∉ wipeRoots)) }

/-- Source: `BookmarksStore::reset(assoc)`: empties the mirror, clears local
tombstones, sets every local item's change counter to 1 and status to
`New`, recreates the mirror roots, zeroes the last-sync time, and
clears or writes the sync-id metadata keys according to `assoc`. -/
def reset (assoc : StoreSyncAssociation) (s : DbState) : DbState :=
  let s1 : DbState :=
    { s with
      mirror := [],
      mirrorStructure := [],
      tombstones := [],
      localItems := s.localItems.map
        (fun b => { b with syncChangeCounter := 1, syncStatus := .new }) }
  let s2 := createSyncedBookmarkRoots s1
  let s3 := putMetaLastSync 0 s2
  match assoc with
  | .disconnected =>
      { s3 with meta := { s3.meta with globalSyncId := none, collSyncId := none } }
  | .connected global coll =>
      { s3 with meta := { s3.meta with globalSyncId := some global, collSyncId := some coll } }

/-- Source: `BookmarksStore::wipe` (with `now()` passed explicitly): inserts
tombstones for every local item outside the five `wipeRoots` whose
status is `Normal`, increments the change counter of every local row
whose guid is in `wipeRoots`, deletes every local row outside
`wipeRoots`, and recreates the mirror roots.  The sync metadata is not
touched. -/
def wipe (now : Int) (s : DbState) : DbState :=
  let newTombs := s.localItems.filterMap (fun b =>
    if b.guid ∉ wipeRoots ∧ b.syncStatus = .normal then
      some ({ guid := b.guid, dateRemoved := now } : TombstoneRow)
    else none)
  let s1 : DbState :=
    { s with
      tombstones := s.tombstones ++ newTombs,
      localItems := (s.localItems.map (fun b =>
          if b.guid ∈ wipeRoots then
            { b with syncChangeCounter := b.syncChangeCounter + 1 }
          else b)).filter (fun b => decide (b.guid ∈ wipeRoots)) }
  createSyncedBookmarkRoots s1

/-- One row of the recursive `localItems` common table expression
(`LocalItemsFragment`): the `moz_bookmarks` row together with the
computed columns `level`, `parentId`, `parentGuid` and `parentTitle`
(the root row has `parentId = 0` and null parent guid/title). -/
structure CteRow where
  b : LocalRow
  level : Nat
  parentId : Int
  parentGuid : Option Guid
  parentTitle : Option String
deriving DecidableEq, Repr

/-- Level-`n` rows of the `localItems` CTE: level 0 selects the rows
whose guid is the synthetic root; level `n+1` joins `moz_bookmarks`
against the level-`n` rows on `b.parent = s.id`. -/
def cteLevel (s : DbState) : Nat → List CteRow
  | 0 =>
      (s.localItems.filter (fun b => b.guid == rootGuid)).map
        (fun b => { b := b, level := 0, parentId := 0, parentGuid := none, parentTitle := none })
  | n + 1 =>
      (cteLevel s n).flatMap (fun p =>
        (s.localItems.filter (fun b => b.parent == p.b.id)).map
          (fun b =>
            { b := b, level := n + 1, parentId := p.b.id,
              parentGuid := some p.b.guid, parentTitle := p.b.title }))

/-- All rows of the `localItems` CTE.  The SQL recursion runs until no
new rows are produced; on the acyclic trees the table maintains, every
row is reached within `localItems.length` joins, so we evaluate the
levels up to that depth. -/
def localItemsCTE (s : DbState) : List CteRow :=
  (List.range (s.localItems.length + 1)).flatMap (cteLevel s)

/-- Source: `BookmarksStore::has_changes`: true when some mirror row needs
merging (excluding tombstones with no corresponding local row), or some
local item reached by the `localItems` CTE has a positive change
counter, or a local tombstone exists. -/
def hasChanges (s : DbState) : Bool :=
  (s.mirror.any (fun v =>
      v.needsMerge && (!v.isDeleted || s.localItems.any (fun b => b.guid == v.guid))))
  || ((localItemsCTE s).any (fun r => decide (r.b.syncChangeCounter > 0)))
  || !s.tombstones.isEmpty

/-- The URL of a place id: `SELECT h.url FROM moz_places h WHERE h.id = …`
(`UrlOrPlaceIdFragment::PlaceId`). -/
def urlOf (s : DbState) (placeId : Option Int) : Option String :=
  placeId.bind (fun pid => (s.places.find? (fun h => h.id == pid)).map (fun h => h.url))

/-- Source: `item_kind_fragment`: converts a local item type to a synced item
kind; a bookmark whose URL starts with the six characters `place:` is a
query, and a bookmark with no URL row falls through to the bookmark
kind (SQL `substr(NULL, 1, 6)` is `NULL`). -/
def itemKind (type : BookmarkType) (url : Option String) : SyncedBookmarkKind :=
  match type with
  | .bookmark =>
      match url with
      | some u => if u.take 6 == "place:" then .query else .bookmark
      | none => .bookmark
  | .folder => .folder
  | .separator => .separator

/-- A dogear tree `Item` as filled in by `local_row_to_item` /
`remote_row_to_item`: guid, kind, age in milliseconds, needs-merge flag
and validity. -/
structure Item where
  guid : Guid
  kind : SyncedBookmarkKind
  age : Int
  needsMerge : Bool
  validity : SyncedBookmarkValidity
deriving DecidableEq, Repr

/-- Source: `Merger::local_row_to_item`: the age is
`local_time.duration_since(localModified).unwrap_or_default()` — the
difference when the modification time is not in the future, and zero
otherwise — and `needs_merge` is `syncChangeCounter > 0`. -/
def localRowToItem (s : DbState) (localTime : Int) (r : CteRow) : Item :=
  { guid := r.b.guid,
    kind := itemKind r.b.type (urlOf s r.b.fk),
    age := if r.b.lastModified ≤ localTime then localTime - r.b.lastModified else 0,
    needsMerge := decide (r.b.syncChangeCounter > 0),
    validity := .valid }

/-- Source: `Merger::remote_row_to_item`: the age is
`remote_time.duration_since(serverModified).unwrap_or_default()`, and
needs-merge and validity are copied from the mirror row. -/
def remoteRowToItem (remoteTime : Int) (v : MirrorRow) : Item :=
  { guid := v.guid,
    kind := v.kind,
    age := if v.serverModified ≤ remoteTime then remoteTime - v.serverModified else 0,
    needsMerge := v.needsMerge,
    validity := v.validity }

/-- The ordering `ORDER BY s.level, s.parentId, s.position` used by
`fetch_local_tree`. -/
def cteLE (a c : CteRow) : Prop :=
  a.level < c.level ∨
    (a.level = c.level ∧
      (a.parentId < c.parentId ∨
        (a.parentId = c.parentId ∧ a.b.position ≤ c.b.position)))

instance : DecidableRel cteLE := fun a c => by
  unfold cteLE; infer_instance

/-- The data `Merger::fetch_local_tree` hands to the dogear tree
builder: the root item, the descendant items paired with the parent
guid they are attached by, and the noted-deleted guids from
`moz_bookmarks_deleted`. -/
structure LocalTreeData where
  root : Item
  descendants : List (Item × Option Guid)
  deleted : List Guid
deriving DecidableEq, Repr

/-- Source: `Merger::fetch_local_tree`: runs the `localItems` CTE ordered by
`(level, parentId, position)`; the first row is the root, the rest are
descendants attached by parent guid; an empty result set means the
local roots are missing and raises the invalid-local-roots corruption
error.  Local tombstones are noted as deleted guids. -/
def fetchLocalTree (localTime : Int) (s : DbState) : Except SyncError LocalTreeData :=
  match (localItemsCTE s).insertionSort cteLE with
  | [] => .error (.corruption .invalidLocalRoots)
  | r0 :: rest =>
      .ok { root := localRowToItem s localTime r0,
            descendants := rest.map (fun r => (localRowToItem s localTime r, r.parentGuid)),
            deleted := s.tombstones.map (fun t => t.guid) }

/-- The data `Merger::fetch_remote_tree` hands to the dogear tree
builder: the root item, the non-deleted descendants paired with their
`parentGuid` column, the authoritative structure edges, and the
noted-deleted guids (mirror tombstones that need merging). -/
structure RemoteTreeData where
  root : Item
  descendants : List (Item × Option Guid)
  structureEdges : List (Guid × Guid)
  deleted : List Guid
deriving DecidableEq, Repr

/-- The ordering `ORDER BY guid` for the mirror descendants query. -/
def mirrorGuidLE (a c : MirrorRow) : Prop := a.guid ≤ c.guid

instance : DecidableRel mirrorGuidLE := fun a c => by
  unfold mirrorGuidLE; infer_instance

/-- The ordering `ORDER BY parentGuid, position` for the structure query. -/
def structLE (a c : MirrorStructureRow) : Prop :=
  a.parentGuid < c.parentGuid ∨ (a.parentGuid = c.parentGuid ∧ a.position ≤ c.position)

instance : DecidableRel structLE := fun a c => by
  unfold structLE; infer_instance

/-- Source: `Merger::fetch_remote_tree`: the root is the first non-deleted
mirror row with the synthetic root guid (its absence raises the
invalid-synced-roots corruption error); descendants are the other
non-deleted mirror rows ordered by guid; structure edges come from
`moz_bookmarks_synced_structure`; mirror tombstones with `needsMerge`
are noted as deleted. -/
def fetchRemoteTree (remoteTime : Int) (s : DbState) : Except SyncError RemoteTreeData :=
  match s.mirror.find? (fun v => !v.isDeleted && v.guid == rootGuid) with
  | none => .error (.corruption .invalidSyncedRoots)
  | some root =>
      .ok { root := remoteRowToItem remoteTime root,
            descendants :=
              ((s.mirror.filter (fun v => !v.isDeleted && v.guid != rootGuid)).insertionSort
                  mirrorGuidLE).map
                (fun v => (remoteRowToItem remoteTime v, v.parentGuid)),
            structureEdges :=
              ((s.mirrorStructure.filter (fun r => r.guid != rootGuid)).insertionSort
                  structLE).map (fun r => (r.guid, r.parentGuid)),
            deleted :=
              (s.mirror.filter (fun v => v.isDeleted && v.needsMerge)).map (fun v => v.guid) }

/-- The local item type corresponding to a synced kind (used when the
merge applies a remote item locally). -/
def typeOfKind : SyncedBookmarkKind → BookmarkType
  | .bookmark => .bookmark
  | .query => .bookmark
  | .folder => .folder
  | .livemark => .folder
  | .separator => .separator

/-- A fresh `moz_bookmarks` rowid for an item inserted by the merge. -/
def freshLocalId (s : DbState) : Int :=
  (s.localItems.foldl (fun m b => max m b.id) 0) + 1

/-- Queue a place id for frecency recalculation (the triggers insert
into `moz_places_stale_frecencies` for every affected place). -/
def markStale (now : Int) (placeId : Option Int) (s : DbState) : DbState :=
  match placeId with
  | some pid => { s with staleFrecencies := s.staleFrecencies ++ [{ placeId := pid, staleAt := now }] }
  | none => s

/-- Modelled from the spec: the `insertNewLocalItems` and
`updateExistingLocalItems` instead-of-delete triggers on the
`itemsToMerge` view (the trigger SQL lives in the schema, not in this
file's source).  For every merged descendant whose remote side should
be applied, the local row for the merged guid is created from the
mirror row when absent and updated from it when present; affected place
ids are queued for frecency recalculation. -/
def applyRemoteItemStep (now : Int) (st : DbState) (d : MergedTreeRow) : DbState :=
  if d.useRemote then
    match st.mirror.find? (fun v => some v.guid == d.remoteGuid) with
    | none => st
    | some v =>
        let st := markStale now v.placeId st
        if st.localItems.any (fun b => b.guid == d.mergedGuid) then
          { st with localItems := st.localItems.map (fun b =>
              if b.guid == d.mergedGuid then
                { b with
                  type := typeOfKind v.kind,
                  title := v.title,
                  fk := v.placeId,
                  dateAdded := min b.dateAdded (v.dateAdded.getD b.dateAdded),
                  lastModified := now,
                  syncStatus := .normal }
              else b) }
        else
          { st with localItems := st.localItems ++
              [{ id := freshLocalId st, guid := d.mergedGuid, parent := 0,
                 position := d.position, type := typeOfKind v.kind,
                 title := v.title, fk := v.placeId,
                 dateAdded := v.dateAdded.getD now, lastModified := now,
                 syncChangeCounter := 0, syncStatus := .normal }] }
  else st

/-- See `applyRemoteItemStep`: the triggers fire once per merged
descendant, in order. -/
def applyRemoteItems (now : Int) (descs : List MergedTreeRow) (s : DbState) : DbState :=
  descs.foldl (applyRemoteItemStep now) s

/-- Modelled from the spec: the `updateLocalStructure` trigger on the
`structureToMerge` view — repositions local children to match the
merged tree (parent and position from `mergedTree`); roots are never
reordered. -/
def applyMergedStructure (descs : List MergedTreeRow) (s : DbState) : DbState :=
  { s with localItems := s.localItems.map (fun b =>
      if b.guid == rootGuid then b
      else
        match descs.find? (fun d => d.mergedGuid == b.guid) with
        | none => b
        | some d =>
            match s.localItems.find? (fun p => p.guid == d.mergedParentGuid) with
            | some p => { b with parent := p.id, position := d.position }
            | none => { b with position := d.position }) }

/-- Modelled from the spec: the `removeLocalItems` trigger on
`itemsToRemove` — deletes the local rows, emits tombstones when
`shouldUploadTombstone`, and queues the removed rows' place ids for
frecency recalculation. -/
def removeLocalItems (now : Int) (dels : List DeletionRow) (s : DbState) : DbState :=
  let removedFks := s.localItems.filterMap (fun b =>
    if dels.any (fun dl => dl.guid == b.guid) then b.fk else none)
  { s with
    localItems := s.localItems.filter (fun b => !(dels.any (fun dl => dl.guid == b.guid))),
    tombstones := s.tombstones ++ dels.filterMap (fun dl =>
      if dl.shouldUploadTombstone then
        some ({ guid := dl.guid, dateRemoved := now } : TombstoneRow)
      else none),
    staleFrecencies := s.staleFrecencies ++
      removedFks.map (fun pid => { placeId := pid, staleAt := now }) }

/-- Source: `BookmarksStore::update_local_items`: stages the merged descendants
into `mergedTree` and the deletions into `itemsToRemove`, then fires
the view triggers (apply remote items, update structure, remove
items). -/
def updateLocalItems (now : Int) (descs : List MergedTreeRow) (dels : List DeletionRow)
    (s : DbState) : DbState :=
  let s1 := { s with mergedTree := descs, itemsToRemove := dels }
  let s2 := removeLocalItems now s1.itemsToRemove
    (applyMergedStructure s1.mergedTree (applyRemoteItems now s1.mergedTree s1))
  { s2 with itemsToRemove := [] }

/-- Source: `BookmarksStore::stage_local_items_to_upload`: stages weak uploads
(items whose remote side won but whose local `dateAdded` is older),
then the locally changed items reached by the `localItems` CTE that
appear in `mergedTree`, then the child guids of uploaded folders, the
tags of uploaded items, and finally tombstone rows from
`moz_bookmarks_deleted` (insert-or-ignore on guid). -/
def stageLocalItemsToUpload (s : DbState) : DbState :=
  let weakNew := s.localItems.filterMap (fun b =>
    match s.mergedTree.find? (fun r => r.mergedGuid == b.guid) with
    | none => none
    | some r =>
        if r.useRemote then
          match r.remoteGuid.bind (fun rg => s.mirror.find? (fun v => v.guid == rg)) with
          | none => none
          | some v =>
              match v.dateAdded with
              | some da => if b.dateAdded < da then some b.id else none
              | none => none
        else none)
  let weak := s.idsToWeaklyUpload ++
    weakNew.filter (fun i => !(s.idsToWeaklyUpload.contains i))
  let staged := (localItemsCTE s).filterMap (fun r =>
    match s.mergedTree.find? (fun mt => mt.mergedGuid == r.b.guid) with
    | none => none
    | some mt =>
        if r.b.guid != rootGuid &&
            (decide (r.b.syncChangeCounter > (0 : Int)) || weak.contains r.b.id) then
          some ({ id := some r.b.id, guid := r.b.guid,
                  syncChangeCounter := r.b.syncChangeCounter,
                  parentGuid := r.parentGuid, parentTitle := r.parentTitle,
                  dateAdded := some r.b.dateAdded, title := r.b.title,
                  placeId := r.b.fk,
                  kind := some (itemKind r.b.type (urlOf s r.b.fk)),
                  url := urlOf s r.b.fk,
                  keyword := mt.remoteGuid.bind (fun rg =>
                    (s.mirror.find? (fun v => v.guid == rg)).bind (fun v => v.keyword)),
                  position := some r.b.position,
                  isDeleted := false, uploadedAt := none } : UploadRow)
        else none)
  let upload1 := s.itemsToUpload ++ staged
  let structNew := s.localItems.filterMap (fun b =>
    if upload1.any (fun o => o.id == some b.parent) then
      some ({ guid := b.guid, parentId := b.parent, position := b.position } :
        StructureUploadRow)
    else none)
  let tagsNew := upload1.foldl (fun acc o =>
    match o.id, o.placeId with
    | some i, some pid =>
        acc ++ s.tagsRelation.filterMap (fun tr =>
          if tr.placeId == pid then
            (s.tags.find? (fun t => t.id == tr.tagId)).map (fun t =>
              ({ id := i, tag := t.tag } : TagUploadRow))
          else none)
    | _, _ => acc) []
  let tombRows := s.tombstones.filterMap (fun t =>
    if upload1.any (fun o => o.guid == t.guid) then none
    else
      some ({ id := none, guid := t.guid, syncChangeCounter := 1,
              parentGuid := none, parentTitle := none, dateAdded := none,
              title := none, placeId := none, kind := none, url := none,
              keyword := none, position := none,
              isDeleted := true, uploadedAt := none } : UploadRow))
  { s with
    idsToWeaklyUpload := weak,
    itemsToUpload := upload1 ++ tombRows,
    structureToUpload := s.structureToUpload ++ structNew,
    tagsToUpload := s.tagsToUpload ++ tagsNew }

/-- Source: `Merger::apply`: updates the local items from the merged tree and
deletions, stages the outgoing snapshot, and truncates `mergedTree` and
`idsToWeaklyUpload`. -/
def applyMerged (now : Int) (descs : List MergedTreeRow) (dels : List DeletionRow)
    (s : DbState) : DbState :=
  let s2 := updateLocalItems now descs dels s
  let s3 := stageLocalItemsToUpload s2
  { s3 with mergedTree := [], idsToWeaklyUpload := [] }

/-- The external tree-merge algorithm (dogear's `merge_with_driver` up
to the point where `Merger::apply` is called back): from the trees it
produces the merged descendants and the deletions, or fails
(interruption, corruption, unrecoverable merge conflict). -/
abbrev MergeAlgorithm := DbState → Except SyncError (List MergedTreeRow × List DeletionRow)

/-- Source: `Merger::merge`: short-circuits when `has_changes` is false,
leaving the state untouched and never invoking the tree-merge
algorithm; otherwise runs the algorithm and applies its result.  The
returned flag records whether the algorithm was invoked. -/
def merge (alg : MergeAlgorithm) (now : Int) (s : DbState) :
    Except SyncError (DbState × Bool) :=
  if hasChanges s then
    match alg s with
    | .error e => .error e
    | .ok (descs, dels) => .ok (applyMerged now descs dels s, true)
  else
    .ok (s, false)

/-- Modelled from the spec: `BookmarkRecordId::from(guid).into_payload_id()`
(from `record.rs`, not in this file's source) — the root guids map to
the wire literals, other guids are unchanged. -/
def payloadIdOf (g : Guid) : String :=
  if g == rootGuid then "places"
  else if g == menuGuid then "menu"
  else if g == toolbarGuid then "toolbar"
  else if g == unfiledGuid then "unfiled"
  else if g == mobileGuid then "mobile"
  else g

/-- Modelled from the spec: `BookmarkRecordId::from_payload_id(id)` —
the inverse of `payloadIdOf`. -/
def localGuidOf (id : String) : Guid :=
  if id == "places" then rootGuid
  else if id == "menu" then menuGuid
  else if id == "toolbar" then toolbarGuid
  else if id == "unfiled" then unfiledGuid
  else if id == "mobile" then mobileGuid
  else id

/-- An outgoing `BookmarkRecord`. -/
structure BookmarkRecord where
  recordId : String
  parentRecordId : Option String
  parentTitle : Option String
  dateAdded : Option Int
  hasDupe : Bool
  title : Option String
  url : Option String
  keyword : Option String
  tags : List String
deriving DecidableEq, Repr

/-- An outgoing `QueryRecord`. -/
structure QueryRecord where
  recordId : String
  parentRecordId : Option String
  parentTitle : Option String
  dateAdded : Option Int
  hasDupe : Bool
  title : Option String
  url : Option String
  tagFolderName : Option String
deriving DecidableEq, Repr

/-- An outgoing `FolderRecord`. -/
structure FolderRecord where
  recordId : String
  parentRecordId : Option String
  parentTitle : Option String
  dateAdded : Option Int
  hasDupe : Bool
  title : Option String
  children : List String
deriving DecidableEq, Repr

/-- An outgoing `SeparatorRecord`. -/
structure SeparatorRecord where
  recordId : String
  parentRecordId : Option String
  parentTitle : Option String
  dateAdded : Option Int
  hasDupe : Bool
  position : Option Int
deriving DecidableEq, Repr

/-- An outgoing payload: a tombstone or a typed record. -/
inductive Payload where
  | tombstone (recordId : String)
  | bookmark (r : BookmarkRecord)
  | query (r : QueryRecord)
  | folder (r : FolderRecord)
  | separator (r : SeparatorRecord)
deriving DecidableEq, Repr

/-- An outgoing changeset: server timestamp plus payloads. -/
structure OutgoingChangeset where
  timestamp : Int
  changes : List Payload
deriving DecidableEq, Repr

/-- Source: `BookmarksStore::fetch_outgoing_records`: the child record ids of
an uploaded folder, from `structureToUpload` ordered by position. -/
def childRecordIds (s : DbState) (parentId : Int) : List String :=
  ((s.structureToUpload.filter (fun r => r.parentId == parentId)).insertionSort
      (fun a c => a.position ≤ c.position)).map (fun r => payloadIdOf r.guid)

/-- Source: `BookmarksStore::fetch_outgoing_records`: the tags of an uploaded
item from `tagsToUpload`. -/
def tagsForId (s : DbState) (id : Int) : List String :=
  s.tagsToUpload.filterMap (fun t => if t.id == id then some t.tag else none)

/-- Source: `BookmarksStore::fetch_outgoing_records`: inflates one payload per
`itemsToUpload` row — a tombstone when `isDeleted`, otherwise a typed
record selected by the staged kind (livemarks are skipped; SQL
`IFNULL(title, "")` and `IFNULL(parentTitle, "")` produce empty
strings). -/
def uploadRowToPayload (s : DbState) (u : UploadRow) : Option Payload :=
  if u.isDeleted then some (.tombstone (payloadIdOf u.guid))
  else
    match u.kind with
    | some .bookmark =>
        some (.bookmark
          { recordId := payloadIdOf u.guid,
            parentRecordId := u.parentGuid.map payloadIdOf,
            parentTitle := some (u.parentTitle.getD ""),
            dateAdded := u.dateAdded, hasDupe := true,
            title := some (u.title.getD ""), url := u.url,
            keyword := u.keyword,
            tags := match u.id with | some i => tagsForId s i | none => [] })
    | some .query =>
        some (.query
          { recordId := payloadIdOf u.guid,
            parentRecordId := u.parentGuid.map payloadIdOf,
            parentTitle := some (u.parentTitle.getD ""),
            dateAdded := u.dateAdded, hasDupe := true,
            title := some (u.title.getD ""), url := u.url,
            tagFolderName := none })
    | some .folder =>
        some (.folder
          { recordId := payloadIdOf u.guid,
            parentRecordId := u.parentGuid.map payloadIdOf,
            parentTitle := some (u.parentTitle.getD ""),
            dateAdded := u.dateAdded, hasDupe := true,
            title := some (u.title.getD ""),
            children := match u.id with | some i => childRecordIds s i | none => [] })
    | some .livemark => none
    | some .separator =>
        some (.separator
          { recordId := payloadIdOf u.guid,
            parentRecordId := u.parentGuid.map payloadIdOf,
            parentTitle := some (u.parentTitle.getD ""),
            dateAdded := u.dateAdded, hasDupe := true,
            position := u.position })
    | none => none

/-- Source: `BookmarksStore::fetch_outgoing_records`: one payload per staged
upload row, at the given server timestamp. -/
def fetchOutgoingRecords (timestamp : Int) (s : DbState) : OutgoingChangeset :=
  { timestamp := timestamp,
    changes := s.itemsToUpload.filterMap (uploadRowToPayload s) }

/-- An incoming changeset: server timestamp plus decrypted payloads
(each with its server-modified time).  The payload type is a parameter
because the incoming applicator is external to this file's source. -/
structure IncomingChangeset (π : Type) where
  timestamp : Int
  changes : List (π × Int)
deriving DecidableEq, Repr

/-- Source: `BookmarksStore::stage_incoming`: applies each incoming payload via
the incoming applicator (a parameter — `IncomingApplicator` lives in
`incoming.rs`, outside this file's source) and returns the changeset's
timestamp. -/
def stageIncoming {π : Type} (applyPayload : π → Int → DbState → DbState)
    (inbound : IncomingChangeset π) (s : DbState) : DbState :=
  inbound.changes.foldl (fun st c => applyPayload c.1 c.2 st) s

/-- Source: `BookmarksStore::apply_incoming`: stages the incoming records,
persists the changeset's timestamp as `LAST_SYNC_MS` *before* merging,
merges, and inflates the outgoing records.  The returned state is the
database state at completion or at the failure point: a merge failure
rolls back the merge transaction only, and a failure while inflating
outgoing records (modelled by `outFails`) changes nothing, so neither
reverts the timestamp write. -/
def applyIncoming {π : Type} (applyPayload : π → Int → DbState → DbState)
    (alg : MergeAlgorithm) (now : Int) (outFails : Bool)
    (inbound : IncomingChangeset π) (s : DbState) :
    DbState × Except SyncError OutgoingChangeset :=
  let s1 := stageIncoming applyPayload inbound s
  let s2 := putMetaLastSync inbound.timestamp s1
  match merge alg now s2 with
  | .error e => (s2, .error e)
  | .ok (s3, _) =>
      if outFails then (s3, .error .interrupted)
      else (s3, .ok (fetchOutgoingRecords inbound.timestamp s3))

/-- Modelled from the spec: the `pushUploadedChanges` trigger (schema
SQL, not in this file's source) as it fires for each `itemsToUpload`
row flagged as uploaded — the uploaded item's metadata is copied into
the mirror with the upload timestamp and its merge flag cleared
(`itemsToUpload` is keyed by guid). -/
def mirrorRowOfUpload (uploadedAt : Int) (u : UploadRow) : MirrorRow :=
  { guid := u.guid, parentGuid := u.parentGuid, kind := u.kind.getD .bookmark,
    title := u.title, placeId := u.placeId, keyword := u.keyword,
    dateAdded := u.dateAdded, serverModified := uploadedAt,
    needsMerge := false, isDeleted := u.isDeleted, validity := .valid }

/-- Source: `BookmarksStore::push_synced_items`: flags the staged rows whose
guid is among the synced record ids as uploaded, which fires the
`pushUploadedChanges` trigger (modelled from the spec: decrement each
matching local item's change counter by the staged amount, never below
zero; set its status to `Normal`; remove tombstones for uploaded
deletions; copy the uploaded rows into the mirror); then fast-forwards
`LAST_SYNC_MS` and truncates `itemsToUpload`. -/
def pushSyncedItems (uploadedAt : Int) (recordsSynced : List String) (s : DbState) : DbState :=
  let guids := recordsSynced.map localGuidOf
  let synced := s.itemsToUpload.filter (fun u => guids.contains u.guid)
  let s1 : DbState :=
    { s with
      localItems := s.localItems.map (fun b =>
        match synced.find? (fun u => !u.isDeleted && u.guid == b.guid) with
        | some u =>
            { b with
              syncChangeCounter := max 0 (b.syncChangeCounter - u.syncChangeCounter),
              syncStatus := .normal }
        | none => b),
      tombstones := s.tombstones.filter (fun t =>
        !(synced.any (fun u => u.isDeleted && u.guid == t.guid))),
      mirror := synced.map (mirrorRowOfUpload uploadedAt) ++
        s.mirror.filter (fun v => !(synced.any (fun u => u.guid == v.guid))) }
  let s2 := putMetaLastSync uploadedAt s1
  { s2 with itemsToUpload := [] }

/-- Source: `MAX_FRECENCIES_TO_RECALCULATE_PER_CHUNK`: at most 400 stale
frecencies are recalculated per chunk. -/
def maxFrecenciesToRecalculatePerChunk : Nat := 400

/-- The ordering `ORDER BY stale_at DESC` of the stale-frecency queue. -/
def staleDesc (a c : StaleFrecencyRow) : Prop := c.staleAt ≤ a.staleAt

instance : DecidableRel staleDesc := fun a c => by
  unfold staleDesc; infer_instance

/-- One chunk of the stale-frecency queue: the first
`maxFrecenciesToRecalculatePerChunk` place ids ordered
most-recently-stale first. -/
def staleChunk (s : DbState) : List StaleFrecencyRow :=
  (s.staleFrecencies.insertionSort staleDesc).take maxFrecenciesToRecalculatePerChunk

/-- The stale-frecency queue after deleting the recalculated chunk. -/
def staleRemaining (s : DbState) : List StaleFrecencyRow :=
  s.staleFrecencies.filter (fun r =>
    !(((staleChunk s).map (fun c => c.placeId)).contains r.placeId))

/-- One iteration of the `update_frecencies` loop body: write the
recalculated frecencies back to `moz_places` in one statement, then
delete the recalculated rows from the stale queue. -/
def applyStaleChunk (scorer : Int → Int) (s : DbState) : DbState :=
  let ids := (staleChunk s).map (fun c => c.placeId)
  { s with
    places := s.places.map (fun p =>
      if ids.contains p.id then { p with frecency := scorer p.id } else p),
    staleFrecencies := staleRemaining s }

theorem staleRemaining_length_lt (s : DbState) (h : staleChunk s ≠ []) :
    (staleRemaining s).length < s.staleFrecencies.length := by
  apply List.length_filter_lt_length_iff_exists.mpr
  obtain ⟨r, hr⟩ := List.exists_mem_of_ne_nil _ h
  have hmem : r ∈ s.staleFrecencies :=
    (List.perm_insertionSort staleDesc s.staleFrecencies).subset
      (List.mem_of_mem_take hr)
  refine ⟨r, hmem, ?_⟩
  simp only [Bool.not_eq_true, Bool.not_eq_false, List.contains_eq_any_beq,
    List.any_eq_true, List.mem_map, beq_iff_eq]
  have hx : ((List.map (fun c => c.placeId) (staleChunk s)).any
      fun x => r.placeId == x) = true := by
    simp only [List.any_eq_true, List.mem_map]
    exact ⟨r.placeId, ⟨r, hr, rfl⟩, by simp⟩
  simp [hx]

/-- The loop of `BookmarksStore::update_frecencies` (the frecency
scorer `calculate_frecency` is an external parameter): read a chunk,
stop if it is empty, otherwise recalculate and delete it, and continue
while full chunks keep coming. -/
def updateFrecenciesLoop (scorer : Int → Int) (s : DbState) : DbState :=
  if _hc : staleChunk s = [] then s
  else if (staleChunk s).length < maxFrecenciesToRecalculatePerChunk then
    applyStaleChunk scorer s
  else
    updateFrecenciesLoop scorer (applyStaleChunk scorer s)
termination_by s.staleFrecencies.length
decreasing_by
  simpa [applyStaleChunk] using staleRemaining_length_lt s _hc

/-- Source: `BookmarksStore::update_frecencies`. -/
def updateFrecencies (scorer : Int → Int) (s : DbState) : DbState :=
  updateFrecenciesLoop scorer s

/-- Source: `BookmarksStore::sync_finished`: pushes the synced items, then
recalculates stale frecencies (the passive WAL checkpoint has no
state-level effect). -/
def syncFinished (scorer : Int → Int) (uploadedAt : Int) (recordsSynced : List String)
    (s : DbState) : DbState :=
  updateFrecencies scorer (pushSyncedItems uploadedAt recordsSynced s)

/-- Modelled from the spec: `storage::history::frecency_stale_at`
(not in this file's source) — the `stale_at` timestamp of the queue
entry for the place row with the given URL, if any. -/
def frecencyStaleAt (s : DbState) (url : String) : Option Int :=
  (s.places.find? (fun p => p.url == url)).bind (fun p =>
    (s.staleFrecencies.find? (fun r => r.placeId == p.id)).map (fun r => r.staleAt))

/-! ### Helper lemmas and concrete test fixtures -/

/-- Every row produced by the `localItems` CTE is a `moz_bookmarks` row. -/
theorem cteLevel_mem_localItems (s : DbState) :
    ∀ n, ∀ r ∈ cteLevel s n, r.b ∈ s.localItems := by
  intro n
  cases n with
  | zero =>
      intro r hr
      simp only [cteLevel, List.mem_map] at hr
      obtain ⟨b, hb, rfl⟩ := hr
      exact List.mem_of_mem_filter hb
  | succ n =>
      intro r hr
      simp only [cteLevel, List.mem_flatMap, List.mem_map] at hr
      obtain ⟨p, _, b, hb, rfl⟩ := hr
      exact List.mem_of_mem_filter hb

/-- Rows of the full CTE come from `moz_bookmarks`. -/
theorem localItemsCTE_mem_localItems (s : DbState) :
    ∀ r ∈ localItemsCTE s, r.b ∈ s.localItems := by
  intro r hr
  simp only [localItemsCTE, List.mem_flatMap, List.mem_range] at hr
  obtain ⟨n, _, hr⟩ := hr
  exact cteLevel_mem_localItems s n r hr

/-- An empty metadata table. -/
def emptyMeta : SyncMeta := { lastSyncMs := none, globalSyncId := none, collSyncId := none }

/-- A local root-folder row, as created by places schema initialization. -/
def localRootRow (id : Int) (guid : Guid) (parent : Int) (position : Int) : LocalRow :=
  { id := id, guid := guid, parent := parent, position := position, type := .folder,
    title := some "", fk := none, dateAdded := 0, lastModified := 0,
    syncChangeCounter := 0, syncStatus := .normal }

/-- The five local root rows: the synthetic root and its four user-root
children. -/
def baseLocalItems : List LocalRow :=
  [localRootRow 1 rootGuid 0 0,
   localRootRow 2 menuGuid 1 0,
   localRootRow 3 toolbarGuid 1 1,
   localRootRow 4 unfiledGuid 1 2,
   localRootRow 5 mobileGuid 1 3]

/-- A freshly initialized store: local and mirror roots only, nothing
staged, no tombstones, no pending changes. -/
def baseState : DbState :=
  { localItems := baseLocalItems, mirror := mirrorRootRows,
    mirrorStructure := mirrorRootStructureRows, tombstones := [],
    places := [], staleFrecencies := [], tags := [], tagsRelation := [],
    itemsToUpload := [], structureToUpload := [], tagsToUpload := [],
    idsToWeaklyUpload := [], mergedTree := [], itemsToRemove := [],
    meta := emptyMeta }

/-! ### C9: `get_sync_assoc` -/

/-- Claim C9: for every metadata state, `get_sync_assoc` returns
`Connected(global, coll)` exactly when both the `GLOBAL_SYNC_ID` and
`COLLECTION_SYNC_ID` metadata keys are present, and returns
`Disconnected` when either key is absent; it is a pure read that cannot
fail on missing keys. -/
theorem getSyncAssoc_connected_iff_both_ids (s : DbState) (g c : String) :
    (getSyncAssoc s = .connected g c ↔
      s.meta.globalSyncId = some g ∧ s.meta.collSyncId = some c) ∧
    (getSyncAssoc s = .disconnected ↔
      s.meta.globalSyncId = none ∨ s.meta.collSyncId = none) := by
  unfold getSyncAssoc
  rcases hg : s.meta.globalSyncId with _ | g0 <;>
    rcases hc : s.meta.collSyncId with _ | c0 <;> simp

/-- Witness for C9 at a concrete metadata state. -/
theorem getSyncAssoc_connected_iff_both_ids_witness :
    getSyncAssoc { baseState with
        meta := { lastSyncMs := none, globalSyncId := some "g", collSyncId := some "c" } } =
      .connected "g" "c" :=
  (getSyncAssoc_connected_iff_both_ids _ "g" "c").1.mpr ⟨rfl, rfl⟩

/-! ### C10: ages are clamped to zero -/

/-- Claim C10: the age computed by `local_row_to_item` and
`remote_row_to_item` is never negative; a modification timestamp in the
future of the reference time yields age 0. -/
theorem rowToItem_age_nonneg (s : DbState) (localTime remoteTime : Int)
    (r : CteRow) (v : MirrorRow) :
    0 ≤ (localRowToItem s localTime r).age ∧
    (localTime < r.b.lastModified → (localRowToItem s localTime r).age = 0) ∧
    0 ≤ (remoteRowToItem remoteTime v).age ∧
    (remoteTime < v.serverModified → (remoteRowToItem remoteTime v).age = 0) := by
  unfold localRowToItem remoteRowToItem
  refine ⟨?_, ?_, ?_, ?_⟩ <;> dsimp only
  · split <;> omega
  · intro h; rw [if_neg (by omega)]
  · split <;> omega
  · intro h; rw [if_neg (by omega)]

/-- Witness for C10: a local row modified after the local clock time
and a mirror row modified after the server timestamp both get age 0. -/
theorem rowToItem_age_nonneg_witness :
    (localRowToItem baseState 10
        { b := { localRootRow 1 rootGuid 0 0 with lastModified := 20 }, level := 0,
          parentId := 0, parentGuid := none, parentTitle := none } : Item).age = 0 ∧
    (remoteRowToItem 10 { syncedRootRow rootGuid none with serverModified := 25 }).age = 0 ∧
    0 ≤ (remoteRowToItem 10 { syncedRootRow rootGuid none with serverModified := 25 }).age := by
  have h := rowToItem_age_nonneg baseState 10 10
    { b := { localRootRow 1 rootGuid 0 0 with lastModified := 20 }, level := 0, parentId := 0,
      parentGuid := none, parentTitle := none }
    { syncedRootRow rootGuid none with serverModified := 25 }
  exact ⟨h.2.1 (by decide), h.2.2.2 (by decide), h.2.2.1⟩

/-! ### C7: missing roots raise corruption errors -/

/-- Claim C7: when no local row carries the synthetic root guid,
`fetch_local_tree` fails with the invalid-local-roots corruption error;
when no non-deleted mirror row carries it, `fetch_remote_tree` fails
with the invalid-synced-roots corruption error.  (Both fetchers are
pure reads in this model, as the source performs no writes in them.) -/
theorem fetchTrees_missing_root_corruption (localTime remoteTime : Int)
    (sl sr : DbState)
    (hl : ∀ b ∈ sl.localItems, b.guid ≠ rootGuid)
    (hr : ∀ v ∈ sr.mirror, v.isDeleted = false → v.guid ≠ rootGuid) :
    fetchLocalTree localTime sl = .error (.corruption .invalidLocalRoots) ∧
    fetchRemoteTree remoteTime sr = .error (.corruption .invalidSyncedRoots) := by
  constructor
  · have hlvl : ∀ n, cteLevel sl n = [] := by
      intro n
      induction n with
      | zero =>
          simp only [cteLevel, List.map_eq_nil_iff, List.filter_eq_nil_iff]
          intro b hb
          simpa using hl b hb
      | succ m ih => simp only [cteLevel, ih, List.flatMap_nil]
    have hcte : localItemsCTE sl = [] := by
      simp only [localItemsCTE, List.flatMap_eq_nil_iff]
      intro n _
      exact hlvl n
    unfold fetchLocalTree
    rw [hcte]
    rfl
  · have hfind : sr.mirror.find? (fun v => !v.isDeleted && v.guid == rootGuid) = none := by
      rw [List.find?_eq_none]
      intro v hv
      cases hd : v.isDeleted with
      | true => simp [hd]
      | false => simp [hd, hr v hv hd]
    unfold fetchRemoteTree
    rw [hfind]

/-- Witness for C7: a store whose local table has only an orphan
bookmark row and whose mirror has only a deleted root row triggers both
corruption errors. -/
theorem fetchTrees_missing_root_corruption_witness :
    fetchLocalTree 0
        { baseState with localItems := [localRootRow 9 "bookmarkAAAA" 0 0] } =
      .error (.corruption .invalidLocalRoots) ∧
    fetchRemoteTree 0
        { baseState with mirror := [{ syncedRootRow rootGuid none with isDeleted := true }] } =
      .error (.corruption .invalidSyncedRoots) :=
  fetchTrees_missing_root_corruption 0 0 _ _ (by decide) (by decide)

/-! ### C4: `reset` -/

/-- Counterexample for claim C4: the claim says the mirror is empty
after `reset`, but `reset` recreates the synced roots, so the mirror of
any reset store is nonempty. -/
theorem reset_mirror_not_empty_counterexample :
    (reset .disconnected baseState).mirror ≠ [] := by decide

/-- Claim C4 (amended): after `reset(assoc)` the mirror contains
exactly the recreated synced roots (rather than being empty), local
tombstones are cleared, every local item has change counter 1 and
status `New`, `LAST_SYNC_MS` is 0, and the sync-id metadata keys are
deleted for `Disconnected` and written for `Connected`. -/
theorem reset_state (assoc : StoreSyncAssociation) (s : DbState) :
    (reset assoc s).mirror = mirrorRootRows ∧
    (reset assoc s).mirrorStructure = mirrorRootStructureRows ∧
    (reset assoc s).tombstones = [] ∧
    (∀ b ∈ (reset assoc s).localItems,
        b.syncChangeCounter = 1 ∧ b.syncStatus = .new) ∧
    (reset assoc s).meta.lastSyncMs = some 0 ∧
    (assoc = .disconnected →
        (reset assoc s).meta.globalSyncId = none ∧
        (reset assoc s).meta.collSyncId = none) ∧
    (∀ g c, assoc = .connected g c →
        (reset assoc s).meta.globalSyncId = some g ∧
        (reset assoc s).meta.collSyncId = some c) := by
  cases assoc with
  | disconnected =>
      refine ⟨rfl, rfl, rfl, ?_, rfl, ?_, ?_⟩
      · intro b hb
        simp only [reset, createSyncedBookmarkRoots, putMetaLastSync, List.mem_map] at hb
        obtain ⟨b0, _, rfl⟩ := hb
        exact ⟨rfl, rfl⟩
      · intro _
        exact ⟨rfl, rfl⟩
      · intro g0 c0 h
        cases h
  | connected g c =>
      refine ⟨rfl, rfl, rfl, ?_, rfl, ?_, ?_⟩
      · intro b hb
        simp only [reset, createSyncedBookmarkRoots, putMetaLastSync, List.mem_map] at hb
        obtain ⟨b0, _, rfl⟩ := hb
        exact ⟨rfl, rfl⟩
      · intro h
        cases h
      · intro g0 c0 h
        cases h
        exact ⟨rfl, rfl⟩

/-- Witness for C4 (amended) at a concrete store and association. -/
theorem reset_state_witness :
    (reset (.connected "g" "c") baseState).mirror = mirrorRootRows ∧
    (reset (.connected "g" "c") baseState).meta.lastSyncMs = some 0 ∧
    (reset (.connected "g" "c") baseState).meta.globalSyncId = some "g" := by
  have h := reset_state (.connected "g" "c") baseState
  exact ⟨h.1, h.2.2.2.2.1, (h.2.2.2.2.2.2 "g" "c" rfl).1⟩

/-! ### C3: `wipe` -/

/-- Counterexample for claim C3: after `wipe`, the synthetic root — not
a user root — is still present and its change counter has also been
incremented (from 0 to 1), so it is not the case that only the four
user roots remain nor that exactly the four user roots' counters are
incremented. -/
theorem wipe_increments_synthetic_root_counterexample :
    (wipe 100 baseState).localItems.find? (fun b => b.guid == rootGuid) =
      some { localRootRow 1 rootGuid 0 0 with syncChangeCounter := 1 } ∧
    rootGuid ∉ [menuGuid, toolbarGuid, unfiledGuid, mobileGuid] := by decide

/-- Claim C3 (amended): after `wipe` exactly the five roots (the
synthetic root plus the four user roots) remain, each retained root's
change counter is incremented, a tombstone (dated `now`) exists for
every non-root local item whose status was `Normal`, and the sync
metadata — in particular `LAST_SYNC_MS` — is unchanged. -/
theorem wipe_state (now : Int) (s : DbState) :
    (∀ b ∈ (wipe now s).localItems, b.guid ∈ wipeRoots) ∧
    (∀ b ∈ s.localItems, b.guid ∈ wipeRoots →
        { b with syncChangeCounter := b.syncChangeCounter + 1 } ∈ (wipe now s).localItems) ∧
    (∀ b ∈ s.localItems, b.guid ∉ wipeRoots → b.syncStatus = .normal →
        ({ guid := b.guid, dateRemoved := now } : TombstoneRow) ∈ (wipe now s).tombstones) ∧
    (wipe now s).meta = s.meta := by
  refine ⟨?_, ?_, ?_, rfl⟩
  · intro b hb
    simp only [wipe, createSyncedBookmarkRoots, List.mem_filter] at hb
    simpa using hb.2
  · intro b hb hroots
    simp only [wipe, createSyncedBookmarkRoots, List.mem_filter]
    constructor
    · refine List.mem_map.mpr ⟨b, hb, ?_⟩
      rw [if_pos hroots]
    · simpa using hroots
  · intro b hb hroots hstatus
    simp only [wipe, createSyncedBookmarkRoots, List.mem_append]
    right
    refine List.mem_filterMap.mpr ⟨b, hb, ?_⟩
    rw [if_pos ⟨hroots, hstatus⟩]

/-- A previously synced bookmark row under the menu root. -/
def wipeWitnessBookmark : LocalRow :=
  { id := 6, guid := "bookmarkAAAA", parent := 2, position := 0, type := .bookmark,
    title := some "A", fk := none, dateAdded := 0, lastModified := 0,
    syncChangeCounter := 0, syncStatus := .normal }

/-- A store holding the roots plus one normal bookmark. -/
def wipeWitnessState : DbState :=
  { baseState with localItems := baseLocalItems ++ [wipeWitnessBookmark] }

/-- Witness for C3 (amended): wiping a store that holds one normal
non-root bookmark leaves the roots, increments the menu root's counter,
and creates the bookmark's tombstone. -/
theorem wipe_state_witness :
    (∀ b ∈ (wipe 100 wipeWitnessState).localItems, b.guid ∈ wipeRoots) ∧
    { localRootRow 2 menuGuid 1 0 with syncChangeCounter := 1 } ∈
      (wipe 100 wipeWitnessState).localItems ∧
    ({ guid := "bookmarkAAAA", dateRemoved := 100 } : TombstoneRow) ∈
      (wipe 100 wipeWitnessState).tombstones ∧
    (wipe 100 wipeWitnessState).meta = wipeWitnessState.meta := by
  have h := wipe_state 100 wipeWitnessState
  refine ⟨h.1, ?_, ?_, h.2.2.2⟩
  · exact h.2.1 (localRootRow 2 menuGuid 1 0) (by decide) (by decide)
  · exact h.2.2.1 wipeWitnessBookmark (by decide) (by decide) (by decide)

/-! ### C6: `LAST_SYNC_MS` is written before merge and survives failures -/

theorem markStale_meta (now : Int) (pid : Option Int) (u : DbState) :
    (markStale now pid u).meta = u.meta := by
  cases pid <;> rfl

theorem applyRemoteItemStep_meta (now : Int) (st : DbState) (d : MergedTreeRow) :
    (applyRemoteItemStep now st d).meta = st.meta := by
  unfold applyRemoteItemStep
  split
  · split
    · rfl
    · rename_i v _
      dsimp only
      split
      · exact markStale_meta now v.placeId st
      · exact markStale_meta now v.placeId st
  · rfl

theorem applyRemoteItems_meta (now : Int) (descs : List MergedTreeRow) :
    ∀ s : DbState, (applyRemoteItems now descs s).meta = s.meta := by
  induction descs with
  | nil => intro s; rfl
  | cons d ds ih =>
      intro s
      calc (applyRemoteItems now ds (applyRemoteItemStep now s d)).meta
          = (applyRemoteItemStep now s d).meta := ih _
        _ = s.meta := applyRemoteItemStep_meta now s d

theorem updateLocalItems_meta (now : Int) (descs : List MergedTreeRow)
    (dels : List DeletionRow) (s : DbState) :
    (updateLocalItems now descs dels s).meta = s.meta := by
  unfold updateLocalItems removeLocalItems applyMergedStructure
  exact applyRemoteItems_meta now descs _

theorem stageLocalItemsToUpload_meta (s : DbState) :
    (stageLocalItemsToUpload s).meta = s.meta := rfl

theorem applyMerged_meta (now : Int) (descs : List MergedTreeRow)
    (dels : List DeletionRow) (s : DbState) :
    (applyMerged now descs dels s).meta = s.meta := by
  unfold applyMerged
  calc (stageLocalItemsToUpload (updateLocalItems now descs dels s)).meta
      = (updateLocalItems now descs dels s).meta := stageLocalItemsToUpload_meta _
    _ = s.meta := updateLocalItems_meta now descs dels s

theorem merge_ok_meta (alg : MergeAlgorithm) (now : Int) (s s2 : DbState) (inv : Bool)
    (h : merge alg now s = .ok (s2, inv)) : s2.meta = s.meta := by
  unfold merge at h
  split at h
  · cases halg : alg s with
    | error e => rw [halg] at h; cases h
    | ok p =>
        rw [halg] at h
        cases h
        exact applyMerged_meta now p.1 p.2 s
  · cases h
    rfl

/-- Claim C6: in every run of `apply_incoming`, `LAST_SYNC_MS` already
equals the incoming changeset's timestamp in the state handed to the
merge step, and the state returned by `apply_incoming` — also when the
merge or the outgoing-record staging fails — still carries that
timestamp: the write is never reverted. -/
theorem applyIncoming_persists_lastSync {π : Type}
    (applyPayload : π → Int → DbState → DbState) (alg : MergeAlgorithm)
    (now : Int) (outFails : Bool) (inbound : IncomingChangeset π) (s : DbState) :
    (putMetaLastSync inbound.timestamp
        (stageIncoming applyPayload inbound s)).meta.lastSyncMs = some inbound.timestamp ∧
    ((applyIncoming applyPayload alg now outFails inbound s).1).meta.lastSyncMs =
      some inbound.timestamp := by
  refine ⟨rfl, ?_⟩
  unfold applyIncoming
  cases hm : merge alg now (putMetaLastSync inbound.timestamp
      (stageIncoming applyPayload inbound s)) with
  | error e =>
      simp only [hm]
      rfl
  | ok p =>
      obtain ⟨s3, inv⟩ := p
      have hmeta := merge_ok_meta alg now _ s3 inv hm
      cases outFails with
      | false =>
          simp only [hm]
          rw [if_neg (show ¬((false : Bool) = true) by decide)]
          show s3.meta.lastSyncMs = some inbound.timestamp
          rw [hmeta]
          rfl
      | true =>
          simp only [hm]
          rw [if_pos trivial]
          show s3.meta.lastSyncMs = some inbound.timestamp
          rw [hmeta]
          rfl

/-! ### C5: `merge` short-circuits exactly on `has_changes` -/

/-- A mirror tombstone that still needs merging and has no local
counterpart: `has_changes` deliberately ignores it (bug 1343103). -/
def c5TombRow : MirrorRow :=
  { guid := "bookmarkAAAA", parentGuid := none, kind := .bookmark, title := none,
    placeId := none, keyword := none, dateAdded := none, serverModified := 0,
    needsMerge := true, isDeleted := true, validity := .valid }

/-- A store whose only pending change is an unmerged mirror tombstone
with no local row. -/
def c5State : DbState := { baseState with mirror := mirrorRootRows ++ [c5TombRow] }

/-- Counterexample for claim C5: `has_changes` is false although a
mirror row has `needsMerge` set — the second half of the claim
("has_changes() is false exactly when no mirror row has needs_merge
set, …") does not hold, because needs-merge tombstones without a
corresponding local item are excluded. -/
theorem hasChanges_ignores_unmerged_tombstone_counterexample :
    hasChanges c5State = false ∧
    (c5State.mirror.any (fun v => v.needsMerge)) = true := by decide

/-- Claim C5 (amended): `merge()` returns successfully without invoking
the tree-merge algorithm, leaving the state unchanged, if and only if
`has_changes()` is false; and — for a store whose local rows are all
reached by the rooted `localItems` CTE — `has_changes()` is false
exactly when every needs-merge mirror row is a tombstone with no
corresponding local item, no local item has a positive change counter,
and no local tombstone exists. -/
theorem merge_short_circuit_iff_hasChanges (alg : MergeAlgorithm) (now : Int) (s : DbState)
    (hrooted : ∀ b ∈ s.localItems, b ∈ (localItemsCTE s).map (fun r => r.b)) :
    (merge alg now s = .ok (s, false) ↔ hasChanges s = false) ∧
    (hasChanges s = false ↔
      ((∀ v ∈ s.mirror, v.needsMerge = true →
          v.isDeleted = true ∧ ∀ b ∈ s.localItems, b.guid ≠ v.guid) ∧
       (∀ b ∈ s.localItems, b.syncChangeCounter ≤ 0) ∧
       s.tombstones = [])) := by
  constructor
  · constructor
    · intro h
      by_contra hch
      have hch' : hasChanges s = true := by
        cases hcc : hasChanges s with
        | true => rfl
        | false => exact absurd hcc hch
      unfold merge at h
      rw [if_pos hch'] at h
      cases halg : alg s with
      | error e => rw [halg] at h; cases h
      | ok p =>
          rw [halg] at h
          have : (true : Bool) = false := congrArg Prod.snd (Except.ok.inj h)
          cases this
    · intro hch
      unfold merge
      rw [if_neg (by rw [hch]; exact Bool.false_ne_true)]
  · unfold hasChanges
    rw [Bool.or_eq_false_iff, Bool.or_eq_false_iff]
    have hmir : (s.mirror.any (fun v =>
        v.needsMerge && (!v.isDeleted || s.localItems.any (fun b => b.guid == v.guid)))) =
          false ↔
        (∀ v ∈ s.mirror, v.needsMerge = true →
          v.isDeleted = true ∧ ∀ b ∈ s.localItems, b.guid ≠ v.guid) := by
      rw [List.any_eq_false]
      constructor
      · intro h v hv hnm
        have hf := h v hv
        rw [Bool.not_eq_true, Bool.and_eq_false_iff] at hf
        rcases hf with hf | hf
        · rw [hnm] at hf; cases hf
        · rw [Bool.or_eq_false_iff] at hf
          obtain ⟨hdel, hany⟩ := hf
          refine ⟨by simpa using hdel, ?_⟩
          rw [List.any_eq_false] at hany
          intro b hb
          simpa using hany b hb
      · intro h v hv
        rw [Bool.not_eq_true, Bool.and_eq_false_iff]
        cases hnm : v.needsMerge with
        | false => exact Or.inl rfl
        | true =>
            right
            rw [Bool.or_eq_false_iff]
            obtain ⟨hdel, hng⟩ := h v hv hnm
            refine ⟨by simpa using hdel, ?_⟩
            rw [List.any_eq_false]
            intro b hb
            simpa using hng b hb
    have hcte : ((localItemsCTE s).any (fun r => decide (r.b.syncChangeCounter > 0))) =
          false ↔
        (∀ b ∈ s.localItems, b.syncChangeCounter ≤ 0) := by
      rw [List.any_eq_false]
      constructor
      · intro h b hb
        obtain ⟨r, hr, hrb⟩ := List.mem_map.mp (hrooted b hb)
        have := h r hr
        rw [hrb] at this
        simpa using this
      · intro h r hr
        simpa using h r.b (localItemsCTE_mem_localItems s r hr)
    have htomb : ((!s.tombstones.isEmpty) = false) ↔ s.tombstones = [] := by
      simp [List.isEmpty_iff]
    rw [hmir, hcte, htomb]
    exact ⟨fun h => ⟨h.1.1, h.1.2, h.2⟩, fun h => ⟨⟨h.1, h.2.1⟩, h.2.2⟩⟩

/-- Witness for C5 (amended) at the freshly initialized store, which
has no changes: merge short-circuits. -/
theorem merge_short_circuit_iff_hasChanges_witness :
    merge (fun _ => .error .storage) 0 baseState = .ok (baseState, false) ∧
    hasChanges baseState = false :=
  ⟨(merge_short_circuit_iff_hasChanges (fun _ => .error .storage) 0 baseState
      (by decide)).1.mpr (by decide), by decide⟩

/-! ### C1: matching incoming changesets and the outgoing changeset -/

/-- The `localItems` CTE reads only `moz_bookmarks`. -/
theorem cteLevel_congr (s1 s2 : DbState) (h : s1.localItems = s2.localItems) :
    ∀ n, cteLevel s1 n = cteLevel s2 n := by
  intro n
  induction n with
  | zero => simp only [cteLevel, h]
  | succ m ih => simp only [cteLevel, ih, h]

/-- The full CTE reads only `moz_bookmarks`. -/
theorem localItemsCTE_congr (s1 s2 : DbState) (h : s1.localItems = s2.localItems) :
    localItemsCTE s1 = localItemsCTE s2 := by
  have hfun : cteLevel s1 = cteLevel s2 := funext (cteLevel_congr s1 s2 h)
  unfold localItemsCTE
  rw [h, hfun]

/-- Source: `has_changes` reads only the mirror, the local items, and the
tombstones. -/
theorem hasChanges_congr (s1 s2 : DbState) (hl : s1.localItems = s2.localItems)
    (hm : s1.mirror = s2.mirror) (ht : s1.tombstones = s2.tombstones) :
    hasChanges s1 = hasChanges s2 := by
  unfold hasChanges
  rw [hl, hm, ht, localItemsCTE_congr s1 s2 hl]

/-- A merge outcome in which both sides agree on every node: the merged
tree is the local tree unchanged (every descendant `Unchanged`, no
deletions) — dogear's result when local and remote trees coincide. -/
def trivialMergeAlg : MergeAlgorithm := fun s =>
  .ok ((localItemsCTE s).map (fun r =>
    { localGuid := some r.b.guid, remoteGuid := some r.b.guid, mergedGuid := r.b.guid,
      mergedParentGuid := r.parentGuid.getD r.b.guid, level := (r.level : Int),
      position := r.b.position, useRemote := false, shouldUpload := false }), [])

/-- A store that matches its mirror but still has a pending local
tombstone from a deletion made since the last sync. -/
def c1State : DbState :=
  { baseState with tombstones := [{ guid := "bookmarkAAAA", dateRemoved := 10 }] }

/-- The empty incoming changeset — trivially, all of its records
already match the mirror, and staging it changes nothing. -/
def c1Inbound : IncomingChangeset Unit := { timestamp := 123, changes := [] }

/-- Counterexample for claim C1: an incoming changeset whose records
already match the mirror (here: no records at all — staging is the
identity) does not guarantee an empty outgoing changeset; a store with
a pending local tombstone uploads it, so `apply_incoming` returns a
nonempty outgoing changeset. -/
theorem applyIncoming_matching_mirror_nonempty_counterexample :
    stageIncoming (fun (_ : Unit) _ st => st) c1Inbound c1State = c1State ∧
    (applyIncoming (fun (_ : Unit) _ st => st) trivialMergeAlg 50 false c1Inbound c1State).2 =
      .ok { timestamp := 123, changes := [Payload.tombstone "bookmarkAAAA"] } ∧
    ({ timestamp := 123, changes := [Payload.tombstone "bookmarkAAAA"] } :
        OutgoingChangeset).changes ≠ [] := by
  refine ⟨rfl, ?_, by decide⟩
  rfl

/-- Claim C1 (amended): if the incoming changeset stages to nothing
(its records already match the mirror), the store has no pending
changes (`has_changes` is false), and no upload rows are left over from
an earlier interrupted sync, then `apply_incoming` returns an outgoing
changeset with an empty list of changes. -/
theorem applyIncoming_no_changes_empty_outgoing {π : Type}
    (applyPayload : π → Int → DbState → DbState) (alg : MergeAlgorithm)
    (now : Int) (inbound : IncomingChangeset π) (s : DbState)
    (hstage : stageIncoming applyPayload inbound s = s)
    (hch : hasChanges s = false)
    (hup : s.itemsToUpload = []) :
    (applyIncoming applyPayload alg now false inbound s).2 =
      .ok { timestamp := inbound.timestamp, changes := [] } := by
  have hch2 : hasChanges (putMetaLastSync inbound.timestamp s) = false :=
    (hasChanges_congr (putMetaLastSync inbound.timestamp s) s rfl rfl rfl).trans hch
  have hm : merge alg now (putMetaLastSync inbound.timestamp s) =
      .ok (putMetaLastSync inbound.timestamp s, false) := by
    unfold merge
    rw [if_neg (by rw [hch2]; exact Bool.false_ne_true)]
  unfold applyIncoming
  rw [hstage]
  simp only [hm]
  rw [if_neg (show ¬((false : Bool) = true) by decide)]
  simp only [fetchOutgoingRecords, putMetaLastSync]
  rw [show ({ s with meta := { s.meta with lastSyncMs := some inbound.timestamp } } :
      DbState).itemsToUpload = s.itemsToUpload from rfl, hup]
  rfl

/-- Witness for C1 (amended): on the freshly initialized store with an
empty incoming changeset, `apply_incoming` produces an empty outgoing
changeset. -/
theorem applyIncoming_no_changes_empty_outgoing_witness :
    (applyIncoming (fun (_ : Unit) _ st => st) trivialMergeAlg 50 false
        ({ timestamp := 44, changes := [] } : IncomingChangeset Unit) baseState).2 =
      .ok { timestamp := 44, changes := [] } :=
  applyIncoming_no_changes_empty_outgoing (fun (_ : Unit) _ st => st) trivialMergeAlg 50
    { timestamp := 44, changes := [] } baseState rfl (by decide) rfl

/-! ### C8: `update_frecencies` -/

theorem contains_eq_of_mem_iff {l1 l2 : List Int} (a : Int) (h : a ∈ l1 ↔ a ∈ l2) :
    l1.contains a = l2.contains a := by
  by_cases hm : a ∈ l2
  · rw [show l1.contains a = true from List.elem_iff.mpr (h.mpr hm),
      show l2.contains a = true from List.elem_iff.mpr hm]
  · have h1 : a ∉ l1 := fun hx => hm (h.mp hx)
    have e1 : l1.contains a = false := by
      cases hc : l1.contains a with
      | false => rfl
      | true => exact absurd (List.elem_iff.mp hc) h1
    have e2 : l2.contains a = false := by
      cases hc : l2.contains a with
      | false => rfl
      | true => exact absurd (List.elem_iff.mp hc) hm
    rw [e1, e2]

/-- Ids surviving the chunk deletion are exactly the queued ids that
were not in the chunk. -/
theorem mem_staleRemaining_ids (s : DbState) (a : Int) :
    a ∈ (staleRemaining s).map (fun r => r.placeId) ↔
      (a ∈ s.staleFrecencies.map (fun r => r.placeId) ∧
       ((staleChunk s).map (fun c => c.placeId)).contains a = false) := by
  unfold staleRemaining
  constructor
  · intro hm
    rw [List.mem_map] at hm
    obtain ⟨r, hr, rfl⟩ := hm
    have hr' := List.mem_filter.mp hr
    refine ⟨List.mem_map_of_mem _ hr'.1, ?_⟩
    simpa using hr'.2
  · rintro ⟨hm, hc⟩
    rw [List.mem_map] at hm ⊢
    obtain ⟨r, hr, rfl⟩ := hm
    refine ⟨r, List.mem_filter.mpr ⟨hr, ?_⟩, rfl⟩
    show (!((staleChunk s).map (fun c => c.placeId)).contains r.placeId) = true
    rw [hc]
    rfl

/-- Chunk ids are queued ids. -/
theorem mem_staleChunk_ids (s : DbState) (a : Int)
    (h : a ∈ (staleChunk s).map (fun c => c.placeId)) :
    a ∈ s.staleFrecencies.map (fun r => r.placeId) := by
  rw [List.mem_map] at h ⊢
  obtain ⟨r, hr, rfl⟩ := h
  exact ⟨r, (List.perm_insertionSort staleDesc s.staleFrecencies).subset
    (List.mem_of_mem_take hr), rfl⟩

/-- Recalculating one chunk and then the remaining queue updates the
same places as recalculating the whole original queue. -/
theorem staleChunk_compose_pointwise (scorer : Int → Int) (s : DbState) (p : PlaceRow) :
    (fun q : PlaceRow =>
        if ((staleRemaining s).map (fun r => r.placeId)).contains q.id
        then { q with frecency := scorer q.id } else q)
      ((fun q : PlaceRow =>
          if ((staleChunk s).map (fun c => c.placeId)).contains q.id
          then { q with frecency := scorer q.id } else q) p) =
    (if (s.staleFrecencies.map (fun r => r.placeId)).contains p.id
     then { p with frecency := scorer p.id } else p) := by
  dsimp only
  by_cases hc : ((staleChunk s).map (fun c => c.placeId)).contains p.id = true
  · rw [if_pos hc]
    have hrem : ((staleRemaining s).map (fun r => r.placeId)).contains p.id = false := by
      cases hx : ((staleRemaining s).map (fun r => r.placeId)).contains p.id with
      | false => rfl
      | true =>
          have := (mem_staleRemaining_ids s p.id).mp (List.elem_iff.mp hx)
          rw [hc] at this
          cases this.2
    have hid : ({ p with frecency := scorer p.id } : PlaceRow).id = p.id := rfl
    rw [hid, if_neg (by rw [hrem]; exact Bool.false_ne_true)]
    have hstale : (s.staleFrecencies.map (fun r => r.placeId)).contains p.id = true :=
      List.elem_iff.mpr (mem_staleChunk_ids s p.id (List.elem_iff.mp hc))
    rw [if_pos hstale]
  · have hc' : ((staleChunk s).map (fun c => c.placeId)).contains p.id = false := by
      cases hx : ((staleChunk s).map (fun c => c.placeId)).contains p.id with
      | false => rfl
      | true => exact absurd hx hc
    rw [if_neg hc]
    have heq : ((staleRemaining s).map (fun r => r.placeId)).contains p.id =
        (s.staleFrecencies.map (fun r => r.placeId)).contains p.id := by
      apply contains_eq_of_mem_iff
      rw [mem_staleRemaining_ids]
      exact ⟨fun h => h.1, fun h => ⟨h, hc'⟩⟩
    rw [heq]

/-- The `update_frecencies` loop drains the whole queue, writing every
queued place's recalculated frecency and touching nothing else. -/
theorem updateFrecenciesLoop_spec (scorer : Int → Int) :
    ∀ n (s : DbState), s.staleFrecencies.length ≤ n →
    (updateFrecenciesLoop scorer s).staleFrecencies = [] ∧
    (updateFrecenciesLoop scorer s).places = s.places.map (fun p =>
      if (s.staleFrecencies.map (fun r => r.placeId)).contains p.id
      then { p with frecency := scorer p.id } else p) ∧
    (updateFrecenciesLoop scorer s).localItems = s.localItems ∧
    (updateFrecenciesLoop scorer s).meta = s.meta ∧
    (updateFrecenciesLoop scorer s).itemsToUpload = s.itemsToUpload ∧
    (updateFrecenciesLoop scorer s).mirror = s.mirror ∧
    (updateFrecenciesLoop scorer s).tombstones = s.tombstones := by
  intro n
  induction n with
  | zero =>
      intro s hlen
      have hnil : s.staleFrecencies = [] := List.length_eq_zero.mp (Nat.le_zero.mp hlen)
      have hchunk : staleChunk s = [] := by
        unfold staleChunk
        rw [hnil]
        rfl
      rw [updateFrecenciesLoop, dif_pos hchunk]
      refine ⟨hnil, ?_, rfl, rfl, rfl, rfl, rfl⟩
      rw [hnil]
      simp
  | succ m ih =>
      intro s hlen
      by_cases hchunk : staleChunk s = []
      · have hsortnil : s.staleFrecencies.insertionSort staleDesc = [] := by
          rcases List.take_eq_nil_iff.mp hchunk with h400 | hs
          · exact absurd h400 (by decide)
          · exact hs
        have hnil : s.staleFrecencies = [] := by
          have hp := List.perm_insertionSort staleDesc s.staleFrecencies
          rw [hsortnil] at hp
          exact hp.symm.eq_nil
        rw [updateFrecenciesLoop, dif_pos hchunk]
        refine ⟨hnil, ?_, rfl, rfl, rfl, rfl, rfl⟩
        rw [hnil]
        simp
      · rw [updateFrecenciesLoop, dif_neg hchunk]
        by_cases hsmall : (staleChunk s).length < maxFrecenciesToRecalculatePerChunk
        · rw [if_pos hsmall]
          have hchunkall : staleChunk s = s.staleFrecencies.insertionSort staleDesc := by
            have hlt : (s.staleFrecencies.insertionSort staleDesc).length <
                maxFrecenciesToRecalculatePerChunk := by
              unfold staleChunk at hsmall
              rw [List.length_take] at hsmall
              omega
            unfold staleChunk
            exact List.take_of_length_le (le_of_lt hlt)
          have hmemiff : ∀ a : Int,
              a ∈ (staleChunk s).map (fun c => c.placeId) ↔
              a ∈ s.staleFrecencies.map (fun r => r.placeId) := by
            intro a
            rw [hchunkall]
            exact ((List.perm_insertionSort staleDesc s.staleFrecencies).map _).mem_iff
          have hrem : staleRemaining s = [] := by
            unfold staleRemaining
            rw [List.filter_eq_nil_iff]
            intro r hr
            have hmem : r.placeId ∈ (staleChunk s).map (fun c => c.placeId) :=
              (hmemiff _).mpr (List.mem_map_of_mem _ hr)
            show ¬(!((staleChunk s).map (fun c => c.placeId)).contains r.placeId) = true
            rw [show ((staleChunk s).map (fun c => c.placeId)).contains r.placeId = true from
              List.elem_iff.mpr hmem]
            decide
          refine ⟨hrem, ?_, rfl, rfl, rfl, rfl, rfl⟩
          show (applyStaleChunk scorer s).places = _
          unfold applyStaleChunk
          dsimp only
          apply List.map_eq_map_iff.mpr
          intro p _
          rw [contains_eq_of_mem_iff p.id (hmemiff p.id)]
        · rw [if_neg hsmall]
          have hlt := staleRemaining_length_lt s hchunk
          have hlen' : (applyStaleChunk scorer s).staleFrecencies.length ≤ m := by
            have hre : (applyStaleChunk scorer s).staleFrecencies = staleRemaining s := rfl
            rw [hre]
            omega
          obtain ⟨h1, h2, h3, h4, h5, h6, h7⟩ := ih (applyStaleChunk scorer s) hlen'
          have hpl : (applyStaleChunk scorer s).places = s.places.map
              (fun p => if ((staleChunk s).map (fun c => c.placeId)).contains p.id
                        then { p with frecency := scorer p.id } else p) := rfl
          have hrs : (applyStaleChunk scorer s).staleFrecencies = staleRemaining s := rfl
          refine ⟨h1, ?_, h3, h4, h5, h6, h7⟩
          rw [h2, hrs, hpl, List.map_map]
          apply List.map_eq_map_iff.mpr
          intro p _
          exact staleChunk_compose_pointwise scorer s p

/-- When the stale queue is empty the recalculation loop is the
identity. -/
theorem updateFrecenciesLoop_eq_self_of_empty (scorer : Int → Int) (s : DbState)
    (h : s.staleFrecencies = []) : updateFrecenciesLoop scorer s = s := by
  rw [updateFrecenciesLoop, dif_pos]
  unfold staleChunk
  rw [h]
  rfl

/-- Claim C8: `update_frecencies` (which reads the stale queue in
chunks of at most 400, most-recently-stale first) writes each
recalculated frecency — the external scorer's value — back to the place
table, deletes every processed place id from the stale queue (draining
it completely), and afterwards `frecency_stale_at(url)` is null for
every url. -/
theorem updateFrecencies_drains_stale_queue (scorer : Int → Int) (s : DbState) :
    (updateFrecencies scorer s).staleFrecencies = [] ∧
    (∀ url, frecencyStaleAt (updateFrecencies scorer s) url = none) ∧
    (updateFrecencies scorer s).places = s.places.map (fun p =>
      if (s.staleFrecencies.map (fun r => r.placeId)).contains p.id
      then { p with frecency := scorer p.id } else p) := by
  obtain ⟨h1, h2, -⟩ := updateFrecenciesLoop_spec scorer s.staleFrecencies.length s le_rfl
  have h1' : (updateFrecencies scorer s).staleFrecencies = [] := h1
  have h2' : (updateFrecencies scorer s).places = _ := h2
  refine ⟨h1', ?_, h2'⟩
  intro url
  unfold frecencyStaleAt
  rw [h1']
  cases (updateFrecencies scorer s).places.find? (fun p => p.url == url) with
  | none => rfl
  | some p => rfl

/-! ### C2: `sync_finished` -/

theorem find?_eq_some_of_key_unique {α : Type} (key : α → Guid) (p : α → Bool)
    (l : List α) (hpw : l.Pairwise (fun x y => key x ≠ key y)) (u : α) (hu : u ∈ l)
    (hpu : p u = true) (hkey : ∀ v, p v = true → key v = key u) :
    l.find? p = some u := by
  induction l with
  | nil => cases hu
  | cons a tl ih =>
      cases hpa : p a with
      | true =>
          rw [List.find?_cons_of_pos _ hpa]
          rcases List.mem_cons.mp hu with rfl | hmem
          · rfl
          · exfalso
            exact (List.pairwise_cons.mp hpw).1 u hmem (hkey a hpa)
      | false =>
          rw [List.find?_cons_of_neg _ (by rw [hpa]; exact Bool.false_ne_true)]
          rcases List.mem_cons.mp hu with rfl | hmem
          · rw [hpu] at hpa; cases hpa
          · exact ih (List.pairwise_cons.mp hpw).2 hmem

/-- Counterexample fixtures for C2: a bookmark whose change counter
grew to 2 after it was staged with counter 1. -/
def c2Bookmark : LocalRow :=
  { id := 6, guid := "bookmarkAAAA", parent := 2, position := 0, type := .bookmark,
    title := some "A", fk := none, dateAdded := 0, lastModified := 0,
    syncChangeCounter := 2, syncStatus := .new }

/-- The staged upload row for `c2Bookmark`, snapshotted when its
counter was 1. -/
def c2Upload : UploadRow :=
  { id := some 6, guid := "bookmarkAAAA", syncChangeCounter := 1,
    parentGuid := some menuGuid, parentTitle := some "", dateAdded := some 0,
    title := some "A", placeId := none, kind := some .bookmark, url := none,
    keyword := none, position := some 0, isDeleted := false, uploadedAt := none }

/-- A store in which `c2Bookmark` changed again after staging. -/
def c2State : DbState :=
  { baseState with
    localItems := baseLocalItems ++ [c2Bookmark],
    itemsToUpload := [c2Upload] }

/-- Counterexample for claim C2: after `sync_finished(7, [bookmarkAAAA])`
the bookmark's change counter is 1, not 0 — the trigger decrements by
the staged amount instead of resetting to zero, so an item edited again
during the upload keeps its pending change. -/
theorem syncFinished_counter_not_zero_counterexample :
    (syncFinished (fun _ => 0) 7 ["bookmarkAAAA"] c2State).localItems.find?
        (fun b => b.guid == "bookmarkAAAA") =
      some { c2Bookmark with syncChangeCounter := 1, syncStatus := .normal } ∧
    ¬(1 : Int) = 0 := by
  have hemp : (pushSyncedItems 7 ["bookmarkAAAA"] c2State).staleFrecencies = [] := rfl
  have heq : syncFinished (fun _ => 0) 7 ["bookmarkAAAA"] c2State =
      pushSyncedItems 7 ["bookmarkAAAA"] c2State :=
    updateFrecenciesLoop_eq_self_of_empty _ _ hemp
  rw [heq]
  exact ⟨rfl, by decide⟩

/-- Claim C2 (amended): after `sync_finished(ts, guids)` (with the
staged upload rows uniquely keyed by guid, as the table's primary key
guarantees), `LAST_SYNC_MS = ts`, the `itemsToUpload` table is empty,
and every local item with a staged, non-tombstone upload row whose guid
is among `guids` has its change counter decremented by the staged
amount — zero exactly when the counter did not change since staging,
never negative — and its status set to `normal`. -/
theorem syncFinished_spec (scorer : Int → Int) (ts : Int) (recordsSynced : List String)
    (s : DbState)
    (hnodup : s.itemsToUpload.Pairwise (fun x y => x.guid ≠ y.guid)) :
    (syncFinished scorer ts recordsSynced s).meta.lastSyncMs = some ts ∧
    (syncFinished scorer ts recordsSynced s).itemsToUpload = [] ∧
    (∀ b ∈ s.localItems, ∀ u ∈ s.itemsToUpload,
      u.guid = b.guid → u.isDeleted = false →
      ((recordsSynced.map localGuidOf).contains u.guid) = true →
      { b with syncChangeCounter := max 0 (b.syncChangeCounter - u.syncChangeCounter),
               syncStatus := .normal } ∈
        (syncFinished scorer ts recordsSynced s).localItems) := by
  obtain ⟨-, -, hloc, hmeta, hup, -, -⟩ := updateFrecenciesLoop_spec scorer
    (pushSyncedItems ts recordsSynced s).staleFrecencies.length
    (pushSyncedItems ts recordsSynced s) le_rfl
  refine ⟨?_, ?_, ?_⟩
  · show (updateFrecenciesLoop scorer (pushSyncedItems ts recordsSynced s)).meta.lastSyncMs =
      some ts
    rw [hmeta]
    rfl
  · show (updateFrecenciesLoop scorer (pushSyncedItems ts recordsSynced s)).itemsToUpload = []
    rw [hup]
    rfl
  · intro b hb u hu hguid hdel hsynced
    show _ ∈ (updateFrecenciesLoop scorer (pushSyncedItems ts recordsSynced s)).localItems
    rw [hloc]
    have hloceq : (pushSyncedItems ts recordsSynced s).localItems =
        s.localItems.map (fun b =>
          match (s.itemsToUpload.filter (fun u =>
              ((recordsSynced.map localGuidOf).contains u.guid))).find?
              (fun u => !u.isDeleted && u.guid == b.guid) with
          | some u =>
              { b with
                syncChangeCounter := max 0 (b.syncChangeCounter - u.syncChangeCounter),
                syncStatus := .normal }
          | none => b) := rfl
    rw [hloceq]
    have hufilter : u ∈ s.itemsToUpload.filter (fun u =>
        ((recordsSynced.map localGuidOf).contains u.guid)) :=
      List.mem_filter.mpr ⟨hu, hsynced⟩
    have hpw : (s.itemsToUpload.filter (fun u =>
        ((recordsSynced.map localGuidOf).contains u.guid))).Pairwise
        (fun x y => x.guid ≠ y.guid) :=
      hnodup.sublist (List.filter_sublist s.itemsToUpload)
    have hfind : (s.itemsToUpload.filter (fun u =>
        ((recordsSynced.map localGuidOf).contains u.guid))).find?
        (fun u => !u.isDeleted && u.guid == b.guid) = some u := by
      apply find?_eq_some_of_key_unique (fun u => u.guid) _ _ hpw u hufilter
      · rw [hdel, hguid]
        simp
      · intro v hv
        rw [Bool.and_eq_true] at hv
        have := hv.2
        rw [beq_iff_eq] at this
        rw [this, hguid]
    refine List.mem_map.mpr ⟨b, hb, ?_⟩
    dsimp only
    rw [hfind]

/-- A bookmark staged and then left unchanged during upload. -/
def c2WitnessBookmark : LocalRow := { c2Bookmark with syncChangeCounter := 1 }

/-- A store where the staged counter matches the live counter. -/
def c2WitnessState : DbState :=
  { baseState with
    localItems := baseLocalItems ++ [c2WitnessBookmark],
    itemsToUpload := [c2Upload] }

/-- Witness for C2 (amended): when the counter is unchanged since
staging, `sync_finished` resets it to 0 and marks the item normal. -/
theorem syncFinished_spec_witness :
    (syncFinished (fun _ => 0) 7 ["bookmarkAAAA"] c2WitnessState).meta.lastSyncMs = some 7 ∧
    { c2WitnessBookmark with syncChangeCounter := 0, syncStatus := .normal } ∈
      (syncFinished (fun _ => 0) 7 ["bookmarkAAAA"] c2WitnessState).localItems := by
  have h := syncFinished_spec (fun _ => 0) 7 ["bookmarkAAAA"] c2WitnessState (by decide)
  refine ⟨h.1, ?_⟩
  have hm := h.2.2 c2WitnessBookmark (by decide) c2Upload (by decide) (by decide)
    (by decide) (by decide)
  rw [show ({ c2WitnessBookmark with
      syncChangeCounter := max 0 (c2WitnessBookmark.syncChangeCounter -
        c2Upload.syncChangeCounter),
      syncStatus := .normal } : LocalRow) =
    { c2WitnessBookmark with syncChangeCounter := 0, syncStatus := .normal } from by decide] at hm
  exact hm

end BookmarkSync
